import Mathlib

/-!
Verification of the RAG (retrieval-augmented generation) PDF-chatbot core
against its specification.  The repository ships the React frontend
(frontend/src/App.jsx and the FileUpload component); the Python backend
(ingestion, embedding, FAISS index, Ollama generation client, LangGraph
orchestrator) is described by the specification and the QUICKSTART /
README documents.  Backend operations are therefore modelled from the
spec; frontend handlers are translated from the JavaScript source.
-/

namespace PdfRag

/-! ### Embedding Service -/

/-- Dimension of the embedding vectors (fixed, per the spec's
"fixed dimensionality" requirement). -/
def EMBED_DIM : Nat := 4

/-- Embedding vectors are fixed-dimension numeric vectors. -/
abbrev Vec := List Int

/-- Modelled from the spec: the Embedding Service's text-to-vector
function (backend embedding code is not in src/).  Deterministic,
fixed-dimension: component j aggregates the character codes at
positions congruent to j modulo the dimension. -/
def embedVec (t : List Char) : Vec :=
  (List.range EMBED_DIM).map (fun j =>
    ((t.enum.filter (fun pc => pc.1 % EMBED_DIM == j)).map
      (fun pc => ((pc.1 + 1) * pc.2.toNat : Int))).sum)

/-- Modelled from the spec: the Embedding Service's process-wide shared
state — a lazily initialized model instance plus bookkeeping. -/
structure EmbedService where
  initialized : Bool
  callCount : Nat
deriving Repr, DecidableEq

/-- Modelled from the spec: one call to the Embedding Service.  The
returned vector depends only on the input text, never on the service
state (warm or cold); the state records initialization and the call. -/
def embedCall (svc : EmbedService) (t : List Char) : Vec × EmbedService :=
  (embedVec t, ⟨true, svc.callCount + 1⟩)

/-! ### Document Ingestor -/

/-- Modelled from the spec: fuel-indexed worker for the chunker.  Splits
text into spans of at most `ml` characters, consecutive spans sharing
`ov` characters; the fuel argument bounds the recursion and is chosen
large enough that it is never exhausted. -/
def chunkifyGo (ml ov : Nat) : Nat → List Char → List (List Char)
  | 0, s => [s]
  | fuel + 1, s =>
    if s.length ≤ ml ∨ ml ≤ ov then [s]
    else s.take ml :: chunkifyGo ml ov fuel (s.drop (ml - ov))

/-- Modelled from the spec: `ingest` splits text into chunks of at most
`ml` characters with `ov` characters shared between consecutive chunks,
preserving order and covering the full input. -/
def chunkify (ml ov : Nat) (s : List Char) : List (List Char) :=
  chunkifyGo ml ov s.length s

/-- De-overlapped concatenation: the first chunk in full, every later
chunk with its leading `ov` shared characters removed. -/
def deOverlapConcat (ov : Nat) : List (List Char) → List Char
  | [] => []
  | c :: cs => c ++ (cs.map (List.drop ov)).flatten

/-! ### Chunks and the Vector Index -/

/-- Chunk record: owning document, stable sequence index, text span and
its embedding vector (assigned once). -/
structure Chunk where
  docId : String
  seqIndex : Nat
  text : List Char
  vec : Vec
deriving Repr, DecidableEq

/-- Modelled from the spec: ingestion of a document into chunk records —
split the text, number the chunks in order, embed each span. -/
def mkChunks (docId : String) (ml ov : Nat) (text : List Char) : List Chunk :=
  (chunkify ml ov text).enum.map (fun p => ⟨docId, p.1, p.2, embedVec p.2⟩)

/-- Squared Euclidean distance between two vectors (smaller = closer). -/
def sqDist (a b : Vec) : Nat :=
  ((List.zipWith (fun x y => ((x - y) * (x - y)).toNat) a b)).sum

/-- Ranking relation used by `search`: chunk `a` ranks at least as well
as chunk `b` for query `q` when its distance is strictly smaller, or
the distances tie and `a` has the smaller-or-equal sequence index
(earlier chunk wins ties). -/
def rankLE (q : Vec) (a b : Chunk) : Prop :=
  sqDist q a.vec < sqDist q b.vec ∨
    (sqDist q a.vec = sqDist q b.vec ∧ a.seqIndex ≤ b.seqIndex)

instance (q : Vec) : DecidableRel (rankLE q) := fun a b =>
  inferInstanceAs (Decidable (sqDist q a.vec < sqDist q b.vec ∨
    (sqDist q a.vec = sqDist q b.vec ∧ a.seqIndex ≤ b.seqIndex)))

instance (q : Vec) : IsTotal Chunk (rankLE q) where
  total a b := by
    unfold rankLE
    rcases Nat.lt_trichotomy (sqDist q a.vec) (sqDist q b.vec) with h | h | h
    · exact Or.inl (Or.inl h)
    · rcases Nat.le_total a.seqIndex b.seqIndex with h2 | h2
      · exact Or.inl (Or.inr ⟨h, h2⟩)
      · exact Or.inr (Or.inr ⟨h.symm, h2⟩)
    · exact Or.inr (Or.inl h)

instance (q : Vec) : IsTrans Chunk (rankLE q) where
  trans a b c hab hbc := by
    unfold rankLE at *
    rcases hab with h1 | ⟨h1, i1⟩
    · rcases hbc with h2 | ⟨h2, _⟩
      · exact Or.inl (h1.trans h2)
      · exact Or.inl (h2 ▸ h1)
    · rcases hbc with h2 | ⟨h2, i2⟩
      · exact Or.inl (h1 ▸ h2)
      · exact Or.inr ⟨h1.trans h2, i1.trans i2⟩

/-- Failure mode of `search` on an index holding no chunks. -/
inductive SearchError where
  | IndexEmptyError
deriving Repr, DecidableEq

/-- Modelled from the spec: `search(query_vector, k)` returns the `k`
best-ranked chunks, best first (smallest distance, ties broken by
ascending sequence index), with `k` clamped to the number of available
chunks; an empty index fails with `IndexEmptyError`. -/
def search (chunks : List Chunk) (q : Vec) (k : Nat) :
    Except SearchError (List Chunk) :=
  if chunks.isEmpty then .error .IndexEmptyError
  else .ok ((List.insertionSort (rankLE q) chunks).take k)

instance {ε α : Type} [DecidableEq ε] [DecidableEq α] :
    DecidableEq (Except ε α) := fun x y =>
  match x, y with
  | .ok a, .ok b =>
    if h : a = b then isTrue (by rw [h])
    else isFalse (by intro hc; cases hc; exact h rfl)
  | .error e, .error f =>
    if h : e = f then isTrue (by rw [h])
    else isFalse (by intro hc; cases hc; exact h rfl)
  | .ok _, .error _ => isFalse (by intro hc; cases hc)
  | .error _, .ok _ => isFalse (by intro hc; cases hc)

/-! ### Generation Client -/

/-- Behavior of the external local model runtime for one request: it
answers after a number of seconds, fails outright, or never responds. -/
inductive RuntimeBehavior where
  | responds (afterSecs : Nat) (text : String)
  | failsWith (cause : String)
  | silent
deriving Repr, DecidableEq

/-- Failure modes of the Generation Client. -/
inductive GenError where
  | timeout
  | failure (cause : String)
deriving Repr, DecidableEq

/-- Outcome of one generation call: the result, the seconds spent
blocked, and how many requests were issued to the runtime. -/
structure GenOutcome where
  result : Except GenError String
  elapsed : Nat
  requests : Nat
deriving Repr

/-- Default generation timeout in seconds (QUICKSTART: the backend is
configured to wait 180s for Ollama). -/
def DEFAULT_TIMEOUT_SECS : Nat := 180

/-- Modelled from the spec: `generate(prompt, timeout)` issues a single
request to the local model runtime and blocks up to `timeout` seconds.
A runtime that never responds (or responds too late) yields
`GenError.timeout` after exactly `timeout` seconds; any other runtime
failure yields `GenError.failure` with the cause.  No retry is ever
performed: exactly one request per call. -/
def generate (rt : RuntimeBehavior) (timeout : Nat) : GenOutcome :=
  match rt with
  | .responds t text =>
      if t ≤ timeout then ⟨.ok text, t, 1⟩ else ⟨.error .timeout, timeout, 1⟩
  | .failsWith cause => ⟨.error (.failure cause), 0, 1⟩
  | .silent => ⟨.error .timeout, timeout, 1⟩

/-! ### Orchestrator -/

/-- Orchestrator-owned state: the currently active document (by
filename) and the Vector Index built from exactly its chunks. -/
structure OrchState where
  doc : Option String
  index : List Chunk
deriving Repr, DecidableEq

/-- Failure taxonomy of the `ask` boundary operation. -/
inductive AskError where
  | NoDocumentError
  | IndexEmptyError
  | GenerationTimeout
  | GenerationError (cause : String)
deriving Repr, DecidableEq

/-- Citation referencing a chunk of the active document. -/
structure Citation where
  docId : String
  seqIndex : Nat
deriving Repr, DecidableEq

/-- Successful `ask` result: the answer plus the citation of the single
best-ranked retrieved chunk. -/
structure AskResult where
  answer : String
  source : Citation
deriving Repr, DecidableEq

/-- Trace of one `ask` request: its result, the orchestrator state
afterwards, and how many times the Embedding Service and the Generation
Client were invoked while serving it. -/
structure AskTrace where
  result : Except AskError AskResult
  state : OrchState
  embedCalls : Nat
  genCalls : Nat
deriving Repr

/-- Modelled from the spec: the `ask` boundary operation.  With no
active document it rejects immediately with `NoDocumentError`, before
any embedding or generation work.  Otherwise it embeds the question,
retrieves the top-`k` chunks, and runs one bounded generation call;
generation failures surface as `GenerationTimeout` / `GenerationError`.
On success the citation references the best-ranked retrieved chunk.
The orchestrator state is never mutated by `ask`. -/
def ask (st : OrchState) (question : String) (rt : RuntimeBehavior)
    (timeout k : Nat) : AskTrace :=
  match st.doc with
  | none => ⟨.error .NoDocumentError, st, 0, 0⟩
  | some _ =>
    match search st.index (embedVec question.data) k with
    | .error .IndexEmptyError => ⟨.error .IndexEmptyError, st, 1, 0⟩
    | .ok [] => ⟨.error .IndexEmptyError, st, 1, 0⟩
    | .ok (best :: _) =>
      match (generate rt timeout).result with
      | .error .timeout => ⟨.error .GenerationTimeout, st, 1, 1⟩
      | .error (.failure cause) => ⟨.error (.GenerationError cause), st, 1, 1⟩
      | .ok text => ⟨.ok ⟨text, ⟨best.docId, best.seqIndex⟩⟩, st, 1, 1⟩

/-- Failure taxonomy of the `upload` boundary operation. -/
inductive UpError where
  | UploadError (cause : String)
  | EmptyDocumentError
  | ModelLoadError
deriving Repr, DecidableEq

/-- Successful `upload` result: the uploaded document's filename. -/
structure UploadResult where
  filename : String
deriving Repr, DecidableEq

/-- Outcome of the collaborator that extracts plain text from raw file
bytes (failure surfaces as `UploadError`). -/
inductive ExtractOutcome where
  | ok (text : List Char)
  | fail (cause : String)
deriving Repr, DecidableEq

/-- Whether the embedding model initializes successfully on this call
path (initialization failure surfaces as `ModelLoadError`). -/
inductive ModelInit where
  | ready
  | loadFail
deriving Repr, DecidableEq

/-- Modelled from the spec: the `upload` boundary operation.  Text
extraction failure fails with `UploadError`; empty extracted text fails
with `EmptyDocumentError`; embedding-model initialization failure fails
with `ModelLoadError`.  On success the new document's chunks replace
the Vector Index wholesale and the filename is returned; on any failure
the previous state is left untouched. -/
def upload (st : OrchState) (filename : String) (extract : ExtractOutcome)
    (model : ModelInit) (ml ov : Nat) :
    Except UpError UploadResult × OrchState :=
  match extract with
  | .fail cause => (.error (.UploadError cause), st)
  | .ok text =>
    if text.isEmpty then (.error .EmptyDocumentError, st)
    else
      match model with
      | .loadFail => (.error .ModelLoadError, st)
      | .ready => (.ok ⟨filename⟩, ⟨some filename, mkChunks filename ml ov text⟩)

/-! ### Frontend handlers (translated from the JavaScript source) -/

/-- Suffix test on character lists, the semantics of JavaScript's
String.endsWith: the last `post.length` characters equal `post`. -/
def endsWithL (s post : List Char) : Bool :=
  s.drop (s.length - post.length) == post

/-- JavaScript `s.endsWith(post)` on Lean strings. -/
def jsEndsWith (s post : String) : Bool :=
  endsWithL s.data post.data

/-- UI state touched by the FileUpload component's handleFile: the
error banner, the uploading flag, the filenames POSTed to /upload, and
the filename reported to onUploadSuccess. -/
structure FileUploadUI where
  error : Option String
  isUploading : Bool
  requestsIssued : List String
  uploadSuccess : Option String
deriving Repr, DecidableEq

/-- Translated from src/unnamed/part_000 (FileUpload component),
handleFile: a file whose name does not end in ".pdf" sets the error
banner and returns before any request; otherwise the file is POSTed to
/upload and the response (here a parameter) drives success or error. -/
def handleFile (ui : FileUploadUI) (fileName : String)
    (response : Except String String) : FileUploadUI :=
  if (jsEndsWith fileName ".pdf") = false then
    { ui with error := some "Please upload a PDF file" }
  else
    let ui1 : FileUploadUI :=
      { ui with error := none, isUploading := true,
                requestsIssued := ui.requestsIssued ++ [fileName] }
    match response with
    | .ok fn => { ui1 with uploadSuccess := some fn, isUploading := false }
    | .error msg => { ui1 with error := some msg, isUploading := false }

/-- UI state touched by App.jsx's handleFileUpload: alerts shown, the
filenames POSTed to /upload, and the uploadedFile state variable. -/
structure AppUI where
  alerts : List String
  requestsIssued : List String
  uploadedFile : Option String
deriving Repr, DecidableEq

/-- Translated from src/frontend/src/App.jsx, handleFileUpload: a
missing file or a name not ending in ".pdf" alerts "Please upload a PDF
file" and returns before any request; otherwise the file is POSTed and
the response drives success or an error alert. -/
def handleFileUpload (ui : AppUI) (file : Option String)
    (response : Except String String) : AppUI :=
  match file with
  | none => { ui with alerts := ui.alerts ++ ["Please upload a PDF file"] }
  | some fileName =>
    if (jsEndsWith fileName ".pdf") = false then
      { ui with alerts := ui.alerts ++ ["Please upload a PDF file"] }
    else
      let ui1 : AppUI :=
        { ui with requestsIssued := ui.requestsIssued ++ [fileName] }
      match response with
      | .ok fn => { ui1 with uploadedFile := some fn }
      | .error msg =>
          { ui1 with alerts := ui1.alerts ++ ["Upload failed: " ++ msg] }

/-! ### Lemmas about the chunker -/

/-- Dropping the leading `ov` characters of every chunk and
concatenating yields the input with its first `ov` characters removed. -/
theorem chunkifyGo_flatten_drop (ml ov : Nat) :
    ∀ (fuel : Nat) (s : List Char),
      ((chunkifyGo ml ov fuel s).map (List.drop ov)).flatten = s.drop ov := by
  intro fuel
  induction fuel with
  | zero => intro s; simp [chunkifyGo]
  | succ fuel ih =>
    intro s
    by_cases hc : s.length ≤ ml ∨ ml ≤ ov
    · simp [chunkifyGo, hc]
    · push_neg at hc
      obtain ⟨h1, h2⟩ := hc
      have hrec : chunkifyGo ml ov (fuel + 1) s =
          s.take ml :: chunkifyGo ml ov fuel (s.drop (ml - ov)) := by
        simp only [chunkifyGo]
        rw [if_neg]
        push_neg
        exact ⟨h1, h2⟩
      rw [hrec]
      simp only [List.map_cons, List.flatten_cons, ih]
      rw [List.drop_take, List.drop_drop]
      have hml : ml - ov + ov = ml := Nat.sub_add_cancel (Nat.le_of_lt h2)
      rw [hml]
      have hdrop : s.drop ml = (s.drop ov).drop (ml - ov) := by
        rw [List.drop_drop, Nat.add_comm ov (ml - ov), hml]
      rw [hdrop, List.take_append_drop]

/-- De-overlapped concatenation of the chunks reconstructs the input. -/
theorem chunkifyGo_reconstruct (ml ov : Nat) :
    ∀ (fuel : Nat) (s : List Char),
      deOverlapConcat ov (chunkifyGo ml ov fuel s) = s := by
  intro fuel
  induction fuel with
  | zero => intro s; simp [chunkifyGo, deOverlapConcat]
  | succ fuel _ =>
    intro s
    by_cases hc : s.length ≤ ml ∨ ml ≤ ov
    · simp [chunkifyGo, hc, deOverlapConcat]
    · push_neg at hc
      obtain ⟨h1, h2⟩ := hc
      have hrec : chunkifyGo ml ov (fuel + 1) s =
          s.take ml :: chunkifyGo ml ov fuel (s.drop (ml - ov)) := by
        simp only [chunkifyGo]
        rw [if_neg]
        push_neg
        exact ⟨h1, h2⟩
      rw [hrec]
      simp only [deOverlapConcat, chunkifyGo_flatten_drop]
      rw [List.drop_drop]
      have hml : ml - ov + ov = ml := Nat.sub_add_cancel (Nat.le_of_lt h2)
      rw [hml, List.take_append_drop]

/-- With adequate fuel every produced chunk has at most `ml`
characters. -/
theorem chunkifyGo_length_le (ml ov : Nat) (hov : ov < ml) :
    ∀ (fuel : Nat) (s : List Char), s.length ≤ fuel →
      ∀ c ∈ chunkifyGo ml ov fuel s, c.length ≤ ml := by
  intro fuel
  induction fuel with
  | zero =>
    intro s hs c hc
    have : s = [] := List.eq_nil_of_length_eq_zero (Nat.le_zero.mp hs)
    subst this
    simp [chunkifyGo] at hc
    subst hc
    simp
  | succ fuel ih =>
    intro s hs c hc
    by_cases hb : s.length ≤ ml ∨ ml ≤ ov
    · rcases hb with hb | hb
      · simp [chunkifyGo, Or.inl hb] at hc
        subst hc; exact hb
      · exact absurd hb (Nat.not_le_of_lt hov)
    · push_neg at hb
      obtain ⟨h1, h2⟩ := hb
      have hrec : chunkifyGo ml ov (fuel + 1) s =
          s.take ml :: chunkifyGo ml ov fuel (s.drop (ml - ov)) := by
        simp only [chunkifyGo]
        rw [if_neg]
        push_neg
        exact ⟨h1, h2⟩
      rw [hrec] at hc
      rcases List.mem_cons.mp hc with hc | hc
      · subst hc
        simp [List.length_take]
      · refine ih (s.drop (ml - ov)) ?_ c hc
        have hlen : (s.drop (ml - ov)).length = s.length - (ml - ov) := by
          simp
        have hpos : 1 ≤ ml - ov := Nat.sub_pos_of_lt hov
        omega

/-- The first chunk always begins with the first `ov` characters of the
input (given `ov ≤ ml`). -/
theorem chunkifyGo_head_take (ml ov : Nat) (hov : ov ≤ ml) :
    ∀ (fuel : Nat) (s : List Char),
      ∃ h rest, chunkifyGo ml ov fuel s = h :: rest ∧ h.take ov = s.take ov := by
  intro fuel s
  cases fuel with
  | zero => exact ⟨s, [], rfl, rfl⟩
  | succ fuel =>
    by_cases hb : s.length ≤ ml ∨ ml ≤ ov
    · refine ⟨s, [], ?_, rfl⟩
      simp [chunkifyGo, hb]
    · push_neg at hb
      obtain ⟨h1, h2⟩ := hb
      refine ⟨s.take ml, chunkifyGo ml ov fuel (s.drop (ml - ov)), ?_, ?_⟩
      · simp only [chunkifyGo]
        rw [if_neg]
        push_neg
        exact ⟨h1, h2⟩
      · rw [List.take_take, Nat.min_eq_left hov]

/-- With adequate fuel, consecutive chunks share exactly the `ov`
boundary characters: each later chunk starts with the last `ov`
characters of its predecessor. -/
theorem chunkifyGo_chain_overlap (ml ov : Nat) (hov : ov < ml) :
    ∀ (fuel : Nat) (s : List Char), s.length ≤ fuel →
      List.Chain' (fun c c' => c'.take ov = c.drop (c.length - ov))
        (chunkifyGo ml ov fuel s) := by
  intro fuel
  induction fuel with
  | zero => intro s _; simp [chunkifyGo]
  | succ fuel ih =>
    intro s hs
    by_cases hb : s.length ≤ ml ∨ ml ≤ ov
    · simp [chunkifyGo, hb]
    · push_neg at hb
      obtain ⟨h1, h2⟩ := hb
      have hrec : chunkifyGo ml ov (fuel + 1) s =
          s.take ml :: chunkifyGo ml ov fuel (s.drop (ml - ov)) := by
        simp only [chunkifyGo]
        rw [if_neg]
        push_neg
        exact ⟨h1, h2⟩
      rw [hrec]
      obtain ⟨h, rest, hcons, hhead⟩ :=
        chunkifyGo_head_take ml ov (Nat.le_of_lt hov) fuel (s.drop (ml - ov))
      rw [List.chain'_cons']
      constructor
      · intro y hy
        rw [hcons] at hy
        simp only [List.head?_cons, Option.mem_def, Option.some.injEq] at hy
        subst hy
        rw [hhead]
        have hlen : (s.take ml).length = ml := by
          simp [List.length_take, Nat.min_eq_left (Nat.le_of_lt h1)]
        rw [hlen, List.drop_take, Nat.sub_sub_self (Nat.le_of_lt hov)]
      · apply ih
        have hpos : 1 ≤ ml - ov := Nat.sub_pos_of_lt hov
        have hlen : (s.drop (ml - ov)).length = s.length - (ml - ov) := by simp
        omega

/-! ### Lemmas about the index and the orchestrator -/

/-- Every chunk produced by ingesting a document carries that
document's identity. -/
theorem mkChunks_docId (d : String) (ml ov : Nat) (t : List Char) :
    ∀ c ∈ mkChunks d ml ov t, c.docId = d := by
  intro c hc
  simp only [mkChunks, List.mem_map] at hc
  obtain ⟨p, _, hp⟩ := hc
  rw [← hp]

/-- Chunks returned by a successful search belong to the index. -/
theorem search_ok_subset (chunks : List Chunk) (q : Vec) (k : Nat)
    (hits : List Chunk) (h : search chunks q k = .ok hits) :
    ∀ c ∈ hits, c ∈ chunks := by
  intro c hc
  unfold search at h
  by_cases he : chunks.isEmpty
  · rw [if_pos he] at h; cases h
  · rw [if_neg he] at h
    have hh : hits = (List.insertionSort (rankLE q) chunks).take k := by
      cases h; rfl
    subst hh
    exact (List.mem_insertionSort (rankLE q)).mp
      (List.take_sublist k _ |>.mem hc)

/-- An ask request never mutates the orchestrator state. -/
theorem ask_state_eq (st : OrchState) (q : String) (rt : RuntimeBehavior)
    (timeout k : Nat) : (ask st q rt timeout k).state = st := by
  unfold ask
  cases hd : st.doc with
  | none => rfl
  | some f =>
    cases hs : search st.index (embedVec q.data) k with
    | error e => cases e; rfl
    | ok hits =>
      cases hits with
      | nil => rfl
      | cons best rest =>
        cases hg : (generate rt timeout).result with
        | error e => cases e <;> rfl
        | ok text => rfl

/-- A successful ask cites a chunk of the active index. -/
theorem ask_ok_source (st : OrchState) (q : String) (rt : RuntimeBehavior)
    (timeout k : Nat) (r : AskResult)
    (h : (ask st q rt timeout k).result = .ok r) :
    ∃ c ∈ st.index, r.source = ⟨c.docId, c.seqIndex⟩ := by
  unfold ask at h
  cases hd : st.doc with
  | none => rw [hd] at h; cases h
  | some f =>
    rw [hd] at h
    cases hs : search st.index (embedVec q.data) k with
    | error e => cases e; rw [hs] at h; cases h
    | ok hits =>
      rw [hs] at h
      cases hits with
      | nil => cases h
      | cons best rest =>
        cases hg : (generate rt timeout).result with
        | error e => rw [hg] at h; cases e <;> cases h
        | ok text =>
          rw [hg] at h
          cases h
          exact ⟨best, search_ok_subset st.index (embedVec q.data) k _ hs best
            (List.mem_cons_self best rest), rfl⟩

/-! ### Claim theorems -/

/-- C1: every call to the ask boundary operation either succeeds with a
record containing an answer string and a source chunk-citation, or
fails with one of NoDocumentError, IndexEmptyError, GenerationTimeout,
GenerationError. -/
theorem ask_result_taxonomy (st : OrchState) (q : String)
    (rt : RuntimeBehavior) (timeout k : Nat) :
    (∃ answer source, (ask st q rt timeout k).result = .ok ⟨answer, source⟩) ∨
    (ask st q rt timeout k).result = .error .NoDocumentError ∨
    (ask st q rt timeout k).result = .error .IndexEmptyError ∨
    (ask st q rt timeout k).result = .error .GenerationTimeout ∨
    ∃ cause, (ask st q rt timeout k).result = .error (.GenerationError cause) := by
  cases h : (ask st q rt timeout k).result with
  | ok r => exact Or.inl ⟨r.answer, r.source, rfl⟩
  | error e =>
    cases e with
    | NoDocumentError => exact Or.inr (Or.inl rfl)
    | IndexEmptyError => exact Or.inr (Or.inr (Or.inl rfl))
    | GenerationTimeout => exact Or.inr (Or.inr (Or.inr (Or.inl rfl)))
    | GenerationError c => exact Or.inr (Or.inr (Or.inr (Or.inr ⟨c, rfl⟩)))

/-- C2: an ask issued while no document is indexed always fails with
NoDocumentError, and neither the Embedding Service nor the Generation
Client is invoked for that request. -/
theorem ask_no_document (st : OrchState) (q : String) (rt : RuntimeBehavior)
    (timeout k : Nat) (h : st.doc = none) :
    (ask st q rt timeout k).result = .error .NoDocumentError ∧
    (ask st q rt timeout k).embedCalls = 0 ∧
    (ask st q rt timeout k).genCalls = 0 := by
  unfold ask
  rw [h]
  exact ⟨rfl, rfl, rfl⟩

/-- C2 witness: asking right after process start (no document, empty
index) fails with NoDocumentError and performs no embedding or
generation work. -/
theorem ask_no_document_witness :
    (⟨none, []⟩ : OrchState).doc = none ∧
    ((ask ⟨none, []⟩ "What does Alpha cause?" .silent 180 3).result =
        .error .NoDocumentError ∧
      (ask ⟨none, []⟩ "What does Alpha cause?" .silent 180 3).embedCalls = 0 ∧
      (ask ⟨none, []⟩ "What does Alpha cause?" .silent 180 3).genCalls = 0) :=
  ⟨rfl, ask_no_document ⟨none, []⟩ "What does Alpha cause?" .silent 180 3 rfl⟩

/-- C3: every call to the upload boundary operation either succeeds
with a record containing the uploaded document's filename, or fails
with one of UploadError, EmptyDocumentError, ModelLoadError. -/
theorem upload_result_taxonomy (st : OrchState) (fn : String)
    (ext : ExtractOutcome) (model : ModelInit) (ml ov : Nat) :
    (upload st fn ext model ml ov).1 = .ok ⟨fn⟩ ∨
    (∃ cause, (upload st fn ext model ml ov).1 = .error (.UploadError cause)) ∨
    (upload st fn ext model ml ov).1 = .error .EmptyDocumentError ∨
    (upload st fn ext model ml ov).1 = .error .ModelLoadError := by
  cases ext with
  | fail c => exact Or.inr (Or.inl ⟨c, rfl⟩)
  | ok text =>
    by_cases he : text.isEmpty
    · refine Or.inr (Or.inr (Or.inl ?_))
      simp [upload, he]
    · cases model with
      | loadFail =>
        refine Or.inr (Or.inr (Or.inr ?_))
        simp [upload, he]
      | ready =>
        refine Or.inl ?_
        simp [upload, he]

/-- C5: the embedding operation is deterministic — any two calls on
identical text, from any two service states (any two runs, warm or
cold), yield bit-identical vectors. -/
theorem embed_deterministic (s1 s2 : EmbedService) (t1 t2 : List Char)
    (h : t1 = t2) : (embedCall s1 t1).1 = (embedCall s2 t2).1 := by
  subst h; rfl

/-- C5 witness: embedding the same text from a cold service and from a
warm service yields the same vector. -/
theorem embed_deterministic_witness :
    "Alpha causes Beta.".data = "Alpha causes Beta.".data ∧
    (embedCall ⟨false, 0⟩ "Alpha causes Beta.".data).1 =
      (embedCall ⟨true, 7⟩ "Alpha causes Beta.".data).1 :=
  ⟨rfl, embed_deterministic ⟨false, 0⟩ ⟨true, 7⟩ _ _ rfl⟩

/-- C8: a generate call against a runtime that never responds fails
with the timeout error after exactly the configured timeout window
(default 180 seconds), not earlier and not with an unbounded hang, and
issues exactly one request (no automatic retry). -/
theorem generate_silent_timeout (timeout : Nat) :
    (generate .silent timeout).result = .error .timeout ∧
    (generate .silent timeout).elapsed = timeout ∧
    (generate .silent timeout).requests = 1 ∧
    DEFAULT_TIMEOUT_SECS = 180 :=
  ⟨rfl, rfl, rfl, rfl⟩

/-- C9: failures are atomic — a failed upload leaves the previously
active document and index unchanged, and an ask never mutates the
orchestrator state (in particular a failed one leaves it unchanged). -/
theorem failed_ops_preserve_state (st : OrchState) (fn : String)
    (ext : ExtractOutcome) (model : ModelInit) (ml ov : Nat) (q : String)
    (rt : RuntimeBehavior) (timeout k : Nat) (e : UpError)
    (h : (upload st fn ext model ml ov).1 = .error e) :
    (upload st fn ext model ml ov).2 = st ∧
    (ask st q rt timeout k).state = st := by
  refine ⟨?_, ask_state_eq st q rt timeout k⟩
  cases ext with
  | fail c => rfl
  | ok text =>
    by_cases he : text.isEmpty
    · simp [upload, he]
    · cases model with
      | loadFail => simp [upload, he]
      | ready =>
        exfalso
        simp [upload, he] at h

/-- C9 witness: a failing upload (text extraction fails) over a working
document leaves the state intact, as does an ask against that state. -/
theorem failed_ops_preserve_state_witness :
    (upload ⟨some "a.pdf", mkChunks "a.pdf" 7 2 "alpha beta".data⟩ "b.pdf"
        (.fail "parse error") .ready 7 2).1 = .error (.UploadError "parse error") ∧
    ((upload ⟨some "a.pdf", mkChunks "a.pdf" 7 2 "alpha beta".data⟩ "b.pdf"
        (.fail "parse error") .ready 7 2).2 =
      ⟨some "a.pdf", mkChunks "a.pdf" 7 2 "alpha beta".data⟩ ∧
     (ask ⟨some "a.pdf", mkChunks "a.pdf" 7 2 "alpha beta".data⟩ "q" .silent
        180 3).state = ⟨some "a.pdf", mkChunks "a.pdf" 7 2 "alpha beta".data⟩) :=
  ⟨rfl, failed_ops_preserve_state ⟨some "a.pdf", mkChunks "a.pdf" 7 2 "alpha beta".data⟩
    "b.pdf" (.fail "parse error") .ready 7 2 "q" .silent 180 3
    (.UploadError "parse error") rfl⟩

/-- C4: on a non-empty index, search(q, k) succeeds and returns the k
best chunks — its output has length k clamped to the number of
available chunks, is ordered best-first under the ranking (smallest
distance first, ties broken by ascending chunk sequence index), and
together with the discarded rest forms a permutation of the index in
which every returned chunk ranks at least as well as every discarded
one. -/
theorem search_topk (chunks : List Chunk) (q : Vec) (k : Nat)
    (hne : chunks ≠ []) :
    ∃ hits rest,
      search chunks q k = .ok hits ∧
      hits.length = min k chunks.length ∧
      List.Sorted (rankLE q) hits ∧
      (hits ++ rest).Perm chunks ∧
      ∀ a ∈ hits, ∀ b ∈ rest, rankLE q a b := by
  have hs := List.sorted_insertionSort (rankLE q) chunks
  refine ⟨(List.insertionSort (rankLE q) chunks).take k,
    (List.insertionSort (rankLE q) chunks).drop k, ?_, ?_, ?_, ?_, ?_⟩
  · unfold search
    rw [if_neg (by simp [List.isEmpty_iff, hne])]
  · rw [List.length_take, List.length_insertionSort]
  · exact List.Pairwise.sublist (List.take_sublist k _) hs
  · rw [List.take_append_drop]
    exact List.perm_insertionSort (rankLE q) chunks
  · have hp := hs
    rw [← List.take_append_drop k (List.insertionSort (rankLE q) chunks)] at hp
    exact (List.pairwise_append.mp hp).2.2

/-- C4 witness: a three-chunk index with a distance tie — the search
returns the two best chunks, tie resolved toward the smaller sequence
index. -/
theorem search_topk_witness :
    ([⟨"a.pdf", 0, "xx".data, [1, 0, 0, 0]⟩,
      ⟨"a.pdf", 1, "yy".data, [9, 9, 9, 9]⟩,
      ⟨"a.pdf", 2, "zz".data, [1, 0, 0, 0]⟩] : List Chunk) ≠ [] ∧
    (∃ hits rest,
      search [⟨"a.pdf", 0, "xx".data, [1, 0, 0, 0]⟩,
        ⟨"a.pdf", 1, "yy".data, [9, 9, 9, 9]⟩,
        ⟨"a.pdf", 2, "zz".data, [1, 0, 0, 0]⟩] [1, 0, 0, 0] 2 = .ok hits ∧
      hits.length = min 2 ([⟨"a.pdf", 0, "xx".data, [1, 0, 0, 0]⟩,
        ⟨"a.pdf", 1, "yy".data, [9, 9, 9, 9]⟩,
        ⟨"a.pdf", 2, "zz".data, [1, 0, 0, 0]⟩] : List Chunk).length ∧
      List.Sorted (rankLE [1, 0, 0, 0]) hits ∧
      (hits ++ rest).Perm [⟨"a.pdf", 0, "xx".data, [1, 0, 0, 0]⟩,
        ⟨"a.pdf", 1, "yy".data, [9, 9, 9, 9]⟩,
        ⟨"a.pdf", 2, "zz".data, [1, 0, 0, 0]⟩] ∧
      ∀ a ∈ hits, ∀ b ∈ rest, rankLE [1, 0, 0, 0] a b) :=
  ⟨by decide,
   search_topk [⟨"a.pdf", 0, "xx".data, [1, 0, 0, 0]⟩,
     ⟨"a.pdf", 1, "yy".data, [9, 9, 9, 9]⟩,
     ⟨"a.pdf", 2, "zz".data, [1, 0, 0, 0]⟩] [1, 0, 0, 0] 2 (by decide)⟩

/-- C6: for any configuration with overlap smaller than the maximum
chunk length, ingest splits the text into ordered chunks of at most
max_chunk_len characters, consecutive chunks share exactly the overlap
boundary characters (each chunk after the first starts with the last
overlap characters of its predecessor), and concatenating the chunk
spans after removing the overlaps reconstructs the original text
exactly — total, gap-free coverage. -/
theorem ingest_chunk_invariants (ml ov : Nat) (s : List Char) (h : ov < ml) :
    (∀ c ∈ chunkify ml ov s, c.length ≤ ml) ∧
    List.Chain' (fun c c' => c'.take ov = c.drop (c.length - ov))
      (chunkify ml ov s) ∧
    deOverlapConcat ov (chunkify ml ov s) = s :=
  ⟨chunkifyGo_length_le ml ov h s.length s (Nat.le_refl _),
   chunkifyGo_chain_overlap ml ov h s.length s (Nat.le_refl _),
   chunkifyGo_reconstruct ml ov s.length s⟩

/-- C6 witness: chunking "hello world" with maximum length 5 and
overlap 2 satisfies the length bound, the overlap chain and exact
reconstruction. -/
theorem ingest_chunk_invariants_witness :
    2 < 5 ∧
    ((∀ c ∈ chunkify 5 2 "hello world".data, c.length ≤ 5) ∧
     List.Chain' (fun c c' => c'.take 2 = c.drop (c.length - 2))
       (chunkify 5 2 "hello world".data) ∧
     deOverlapConcat 2 (chunkify 5 2 "hello world".data) = "hello world".data) :=
  ⟨by decide, ingest_chunk_invariants 5 2 "hello world".data (by decide)⟩

/-- C7: a successful upload of document B replaces the Vector Index
wholesale — afterwards every indexed chunk belongs to B, every chunk a
search returns belongs to B (so never to a previously uploaded document
A distinct from B), and every successful answer's citation points to a
chunk of B. -/
theorem upload_replaces_index (st : OrchState) (fnB : String)
    (ext : ExtractOutcome) (model : ModelInit) (ml ov : Nat)
    (r : UploadResult) (h : (upload st fnB ext model ml ov).1 = .ok r) :
    (∀ c ∈ (upload st fnB ext model ml ov).2.index, c.docId = fnB) ∧
    (∀ q k hits, search (upload st fnB ext model ml ov).2.index q k = .ok hits →
      ∀ c ∈ hits, c.docId = fnB) ∧
    (∀ fnA, fnA ≠ fnB →
      ∀ q k hits, search (upload st fnB ext model ml ov).2.index q k = .ok hits →
        ∀ c ∈ hits, c.docId ≠ fnA) ∧
    (∀ q rt timeout k r2,
      (ask (upload st fnB ext model ml ov).2 q rt timeout k).result = .ok r2 →
      r2.source.docId = fnB) := by
  cases ext with
  | fail c => exact absurd h (by simp [upload])
  | ok text =>
    by_cases he : text.isEmpty
    · exact absurd h (by simp [upload, he])
    · cases model with
      | loadFail => exact absurd h (by simp [upload, he])
      | ready =>
        have hst : (upload st fnB (.ok text) .ready ml ov).2 =
            ⟨some fnB, mkChunks fnB ml ov text⟩ := by
          simp [upload, he]
        rw [hst]
        refine ⟨?_, ?_, ?_, ?_⟩
        · exact mkChunks_docId fnB ml ov text
        · intro q k hits hsearch c hc
          exact mkChunks_docId fnB ml ov text c
            (search_ok_subset _ q k hits hsearch c hc)
        · intro fnA hne q k hits hsearch c hc
          rw [mkChunks_docId fnB ml ov text c
            (search_ok_subset _ q k hits hsearch c hc)]
          exact fun hcon => hne hcon.symm
        · intro q rt timeout k r2 hr
          obtain ⟨c, hci, hsrc⟩ := ask_ok_source _ q rt timeout k r2 hr
          rw [hsrc]
          exact mkChunks_docId fnB ml ov text c hci

/-- C7 witness: after uploading b.pdf over a state holding a.pdf's
chunks, every indexed chunk, every search hit and every answered
citation belongs to b.pdf. -/
theorem upload_replaces_index_witness :
    (upload ⟨some "a.pdf", mkChunks "a.pdf" 7 2 "alpha beta".data⟩ "b.pdf"
        (.ok "hello world".data) .ready 7 2).1 = .ok ⟨"b.pdf"⟩ ∧
    ((∀ c ∈ (upload ⟨some "a.pdf", mkChunks "a.pdf" 7 2 "alpha beta".data⟩
        "b.pdf" (.ok "hello world".data) .ready 7 2).2.index, c.docId = "b.pdf") ∧
     (∀ q k hits, search (upload ⟨some "a.pdf", mkChunks "a.pdf" 7 2 "alpha beta".data⟩
          "b.pdf" (.ok "hello world".data) .ready 7 2).2.index q k = .ok hits →
        ∀ c ∈ hits, c.docId = "b.pdf") ∧
     (∀ fnA, fnA ≠ "b.pdf" →
        ∀ q k hits, search (upload ⟨some "a.pdf", mkChunks "a.pdf" 7 2 "alpha beta".data⟩
            "b.pdf" (.ok "hello world".data) .ready 7 2).2.index q k = .ok hits →
          ∀ c ∈ hits, c.docId ≠ fnA) ∧
     (∀ q rt timeout k r2,
        (ask (upload ⟨some "a.pdf", mkChunks "a.pdf" 7 2 "alpha beta".data⟩
            "b.pdf" (.ok "hello world".data) .ready 7 2).2 q rt timeout k).result = .ok r2 →
        r2.source.docId = "b.pdf")) :=
  ⟨by decide,
   upload_replaces_index ⟨some "a.pdf", mkChunks "a.pdf" 7 2 "alpha beta".data⟩
     "b.pdf" (.ok "hello world".data) .ready 7 2 ⟨"b.pdf"⟩ (by decide)⟩

/-- C10: both client-side upload handlers reject a file whose name does
not end in ".pdf" — they set the user-visible error (error banner
resp. alert) and issue no request to /upload — and consequently every
filename either handler ever POSTs to the upload boundary ends in
".pdf". -/
theorem upload_handlers_pdf_guard (ui : FileUploadUI) (app : AppUI)
    (fn : String) (resp resp2 : Except String String)
    (h : jsEndsWith fn ".pdf" = false) :
    (handleFile ui fn resp).error = some "Please upload a PDF file" ∧
    (handleFile ui fn resp).requestsIssued = ui.requestsIssued ∧
    (handleFileUpload app (some fn) resp2).alerts =
      app.alerts ++ ["Please upload a PDF file"] ∧
    (handleFileUpload app (some fn) resp2).requestsIssued =
      app.requestsIssued ∧
    (∀ g r, ∀ name ∈ (handleFile ui g r).requestsIssued,
      name ∈ ui.requestsIssued ∨ jsEndsWith name ".pdf" = true) ∧
    (∀ f r, ∀ name ∈ (handleFileUpload app f r).requestsIssued,
      name ∈ app.requestsIssued ∨ jsEndsWith name ".pdf" = true) := by
  refine ⟨?_, ?_, ?_, ?_, ?_, ?_⟩
  · simp [handleFile, h]
  · simp [handleFile, h]
  · simp [handleFileUpload, h]
  · simp [handleFileUpload, h]
  · intro g r name hname
    by_cases hg : jsEndsWith g ".pdf" = false
    · simp [handleFile, hg] at hname
      exact Or.inl hname
    · simp only [Bool.not_eq_false] at hg
      unfold handleFile at hname
      rw [if_neg (by simp [hg])] at hname
      cases r with
      | ok fn2 =>
        simp at hname
        rcases hname with hname | hname
        · exact Or.inl hname
        · subst hname; exact Or.inr hg
      | error msg =>
        simp at hname
        rcases hname with hname | hname
        · exact Or.inl hname
        · subst hname; exact Or.inr hg
  · intro f r name hname
    cases f with
    | none =>
      simp [handleFileUpload] at hname
      exact Or.inl hname
    | some g =>
      by_cases hg : jsEndsWith g ".pdf" = false
      · simp [handleFileUpload, hg] at hname
        exact Or.inl hname
      · simp only [Bool.not_eq_false] at hg
        cases r with
        | ok fn2 =>
          simp [handleFileUpload, hg] at hname
          rcases hname with hname | hname
          · exact Or.inl hname
          · subst hname; exact Or.inr hg
        | error msg =>
          simp [handleFileUpload, hg] at hname
          rcases hname with hname | hname
          · exact Or.inl hname
          · subst hname; exact Or.inr hg

/-- C10 witness: uploading "notes.txt" through either handler sets the
error and issues no request. -/
theorem upload_handlers_pdf_guard_witness :
    jsEndsWith "notes.txt" ".pdf" = false ∧
    ((handleFile ⟨none, false, [], none⟩ "notes.txt" (.ok "notes.txt")).error =
        some "Please upload a PDF file" ∧
     (handleFile ⟨none, false, [], none⟩ "notes.txt" (.ok "notes.txt")).requestsIssued =
        (⟨none, false, [], none⟩ : FileUploadUI).requestsIssued ∧
     (handleFileUpload ⟨[], [], none⟩ (some "notes.txt") (.ok "notes.txt")).alerts =
        (⟨[], [], none⟩ : AppUI).alerts ++ ["Please upload a PDF file"] ∧
     (handleFileUpload ⟨[], [], none⟩ (some "notes.txt") (.ok "notes.txt")).requestsIssued =
        (⟨[], [], none⟩ : AppUI).requestsIssued ∧
     (∀ g r, ∀ name ∈ (handleFile ⟨none, false, [], none⟩ g r).requestsIssued,
        name ∈ (⟨none, false, [], none⟩ : FileUploadUI).requestsIssued ∨
          jsEndsWith name ".pdf" = true) ∧
     (∀ f r, ∀ name ∈ (handleFileUpload ⟨[], [], none⟩ f r).requestsIssued,
        name ∈ (⟨[], [], none⟩ : AppUI).requestsIssued ∨
          jsEndsWith name ".pdf" = true)) :=
  ⟨by decide,
   upload_handlers_pdf_guard ⟨none, false, [], none⟩ ⟨[], [], none⟩
     "notes.txt" (.ok "notes.txt") (.ok "notes.txt") (by decide)⟩

end PdfRag
